import Mathlib

/-!
Verification of the stream-transformer, error-sanitization, cancellation and
session-cleanup logic of the query-genie agent service.

Python strings are modelled as `List Char` (one entry per code point), Python
values occurring in stream events as the inductive `PyVal`, and Python
dictionaries as insertion-ordered association lists, mirroring CPython's
ordered-dict semantics (a plain assignment to an existing key keeps its
position; a fresh key is appended at the end; `next(iter(d))` is the
first-inserted live entry).  Code that can raise an exception is embedded as
an `Option`-valued function, `none` meaning the exception propagates.
-/

/-- Model of a Python `str`: its sequence of code points. -/
abbrev Str := List Char

/-- Model of the Python values that occur in agent stream events. -/
inductive PyVal : Type where
  | null : PyVal
  | str : Str → PyVal
  | int : Int → PyVal
  | list : List PyVal → PyVal
  | dict : List (Str × PyVal) → PyVal

mutual

/-- Python `==` on `PyVal` (structural equality). -/
def pyBeq : PyVal → PyVal → Bool
  | .null, .null => true
  | .str a, .str b => a == b
  | .int a, .int b => a == b
  | .list xs, .list ys => pyBeqList xs ys
  | .dict xs, .dict ys => pyBeqDict xs ys
  | _, _ => false

/-- Python `==` on lists of `PyVal`. -/
def pyBeqList : List PyVal → List PyVal → Bool
  | [], [] => true
  | x :: xs, y :: ys => pyBeq x y && pyBeqList xs ys
  | _, _ => false

/-- Python `==` on dict item lists. -/
def pyBeqDict : List (Str × PyVal) → List (Str × PyVal) → Bool
  | [], [] => true
  | kv :: xs, kv2 :: ys => kv.1 == kv2.1 && pyBeq kv.2 kv2.2 && pyBeqDict xs ys
  | _, _ => false

end

/-- Python truthiness of a value (`bool(v)`). -/
def pyTruthy : PyVal → Bool
  | .null => false
  | .str s => !s.isEmpty
  | .int n => n != 0
  | .list xs => !xs.isEmpty
  | .dict kvs => !kvs.isEmpty

/-- `d.get(k, dflt)` on a Python dict with string keys. -/
def pyGet (kvs : List (Str × PyVal)) (k : Str) (dflt : PyVal) : PyVal :=
  match kvs.find? (fun kv => kv.1 == k) with
  | some kv => kv.2
  | none => dflt

/-- `k in d` on a Python dict with string keys. -/
def pyHasKey (kvs : List (Str × PyVal)) (k : Str) : Bool :=
  (kvs.find? (fun kv => kv.1 == k)).isSome

/-- The six ASCII characters Python's `str.strip()` treats as whitespace. -/
def pyIsSpace (c : Char) : Bool :=
  c == ' ' || c == '\t' || c == '\n' || c == '\r' || c == '\x0b' || c == '\x0c'

/-- `s.strip()`. -/
def pyStrip (s : Str) : Str :=
  ((s.dropWhile pyIsSpace).reverse.dropWhile pyIsSpace).reverse

/-- `s.rstrip()`. -/
def pyRstrip (s : Str) : Str :=
  (s.reverse.dropWhile pyIsSpace).reverse

mutual

/-- `str(v)` for a `PyVal` (containers render their items with `repr`). -/
def pyToStr : PyVal → Str
  | .null => "None".data
  | .str s => s
  | .int n => (toString n).data
  | .list xs => '[' :: pyReprList xs ++ [']']
  | .dict kvs => '\x7b' :: pyReprDict kvs ++ ['\x7d']

/-- `repr(v)` for a `PyVal` (string quoting is modelled without escapes). -/
def pyRepr : PyVal → Str
  | .null => "None".data
  | .str s => '\'' :: s ++ ['\'']
  | .int n => (toString n).data
  | .list xs => '[' :: pyReprList xs ++ [']']
  | .dict kvs => '\x7b' :: pyReprDict kvs ++ ['\x7d']

/-- Comma-separated `repr` rendering of a list's items. -/
def pyReprList : List PyVal → Str
  | [] => []
  | [x] => pyRepr x
  | x :: xs => pyRepr x ++ ',' :: ' ' :: pyReprList xs

/-- Comma-separated `'key': repr(value)` rendering of a dict's items. -/
def pyReprDict : List (Str × PyVal) → Str
  | [] => []
  | [kv] => '\'' :: kv.1 ++ '\'' :: ':' :: ' ' :: pyRepr kv.2
  | kv :: rest => ('\'' :: kv.1 ++ '\'' :: ':' :: ' ' :: pyRepr kv.2) ++ ',' :: ' ' :: pyReprDict rest

end

/-- Python `for` iteration over a value: lists yield their items, strings
their characters, dicts their keys; other values raise `TypeError`. -/
def pyIter : PyVal → Option (List PyVal)
  | .list xs => some xs
  | .str s => some (s.map (fun c => PyVal.str [c]))
  | .dict kvs => some (kvs.map (fun kv => PyVal.str kv.1))
  | _ => none

/-! ### `src/agent_service/src/events/workflow.py` -/

/-- `MAX_OUTPUT_LENGTH` from `workflow.py`. -/
def MAX_OUTPUT_LENGTH : Nat := 5000

/-- Python slice-bound normalization for `str.rfind(sub, start, end)`. -/
def pyNormIndex (len : Nat) (i : Int) : Nat :=
  if i < 0 then (len + i).toNat else min i.toNat len

/-- `s.rfind("\n", start, stop)`: the greatest index in the normalized range
`[start, stop)` holding a newline, or `-1` when there is none. -/
def pyRfindNewline (s : Str) (start stop : Int) : Int :=
  let a := pyNormIndex s.length start
  let b := pyNormIndex s.length stop
  match ((List.range b).filter (fun i => decide (a ≤ i) && (s.getD i ' ' == '\n'))).getLast? with
  | some i => (i : Int)
  | none => -1

/-- `truncate_output` from `workflow.py`: outputs within `max_length` are
returned unchanged; longer ones are cut at the last newline found in the 500
characters before the ceiling (hard cut at the ceiling otherwise), right
stripped, and suffixed with a summary of the omitted lines and characters. -/
def truncate_output (output : Str) (max_length : Nat) : Str :=
  if output.length ≤ max_length then output
  else
    let last_newline := pyRfindNewline output ((max_length : Int) - 500) (max_length : Int)
    let truncate_at := if last_newline > 0 then last_newline.toNat else max_length
    let truncated := pyRstrip (output.take truncate_at)
    let line_count := output.count '\n' + 1
    let truncated_lines := truncated.count '\n' + 1
    let remaining : Int := (line_count : Int) - (truncated_lines : Int)
    truncated ++ "\n\n... (truncated ".data ++ (toString remaining).data
      ++ " more lines, ".data ++ (toString ((output.length : Int) - (truncate_at : Int))).data
      ++ " more characters)".data

/-- `TOOL_MESSAGES` from `core/config.py`. -/
def TOOL_MESSAGES : List (Str × Str) :=
  [("calculator".data, "🧮 Calculating".data),
   ("list_all_tables".data, "📂 Listing all tables".data),
   ("list_tables".data, "📂 Listing tables".data),
   ("describe_table".data, "📑 Inspecting table structure".data),
   ("describe_table_with_comments".data, "🗒️ Reading schema details".data),
   ("get_query_syntax_help".data, "🔧 Getting query syntax".data),
   ("query".data, "🔎 Querying database".data),
   ("get_row_count".data, "🔢 Counting rows".data),
   ("sample_data".data, "📊 Sampling data".data),
   ("explain_query".data, "🧭 Analyzing query plan".data),
   ("list_indexes".data, "🗂️ Listing indexes".data),
   ("list_foreign_keys".data, "🔗 Checking relationships".data),
   ("get_table_comments".data, "💬 Reading table comments".data),
   ("database_health".data, "💚 Checking health".data)]

/-- `TOOL_MESSAGES.get(tool_name, f"⚙️ Running \x7btool_name\x7d ...")` as used
by `handle_tool_use_block` in `workflow.py`. -/
def workflow_tool_message (tool_name : PyVal) : Str :=
  match TOOL_MESSAGES.find? (fun kv => pyBeq (.str kv.1) tool_name) with
  | some kv => kv.2
  | none => "⚙️ Running ".data ++ pyToStr tool_name ++ " ...".data

/-- `TOOL_MESSAGES.get(tool_name, f"⚙️ Running \x7btool_name\x7d...")` as used
by the live `current_tool_use` branch of `process_stream_event` in
`stream.py` (note: no space before the ellipsis there). -/
def stream_tool_message (tool_name : PyVal) : Str :=
  match TOOL_MESSAGES.find? (fun kv => pyBeq (.str kv.1) tool_name) with
  | some kv => kv.2
  | none => "⚙️ Running ".data ++ pyToStr tool_name ++ "...".data

/-- A `PendingToolCall` value: `{"name": ..., "message": ..., "input": ...}`. -/
structure ToolInfo : Type where
  name : PyVal
  message : Str
  input : PyVal

/-- The `pending_tools` dict, in insertion order (oldest entry first). -/
abbrev PendingMap := List (PyVal × ToolInfo)

/-- `k in pending_tools`. -/
def pendingHasKey (pending : PendingMap) (k : PyVal) : Bool :=
  pending.any (fun kv => pyBeq kv.1 k)

/-- The value stored under key `k`. -/
def pendingLookup (pending : PendingMap) (k : PyVal) : Option ToolInfo :=
  (pending.find? (fun kv => pyBeq kv.1 k)).map (fun kv => kv.2)

/-- `pending_tools.pop(k)`: the map with the entry for `k` removed. -/
def pendingPop (pending : PendingMap) (k : PyVal) : PendingMap :=
  match pending with
  | [] => []
  | kv :: rest => if pyBeq kv.1 k then rest else kv :: pendingPop rest k

/-- `pending_tools[k] = v`: overwrite in place, or append a fresh key. -/
def pendingInsert (pending : PendingMap) (k : PyVal) (v : ToolInfo) : PendingMap :=
  if pendingHasKey pending k then
    pending.map (fun kv => if pyBeq kv.1 k then (kv.1, v) else kv)
  else pending ++ [(k, v)]

/-- `extract_reasoning_content` from `workflow.py`.  The Python function is
declared to return `str` but on the shape `{"reasoningText": {"text": v}}` it
returns `v` unconverted, so the embedding returns the raw `PyVal`. -/
def extract_reasoning_content (block : List (Str × PyVal)) : PyVal :=
  match pyGet block "reasoningContent".data (.dict []) with
  | .dict reasoning =>
    if pyHasKey reasoning "reasoningText".data then
      match pyGet reasoning "reasoningText".data .null with
      | .dict rt => pyGet rt "text".data (.str [])
      | rt => .str (pyToStr rt)
    else if pyHasKey reasoning "text".data then
      .str (pyToStr (pyGet reasoning "text".data .null))
    else .str []
  | _ => .str []

/-- The loop of `extract_tool_output` over a list payload; `none` models the
`TypeError` raised by `output_text += item["text"]` on a non-string value. -/
def extractTextItems : List PyVal → Str → Option Str
  | [], acc => some acc
  | item :: rest, acc =>
    match item with
    | .dict kvs =>
      if pyHasKey kvs "text".data then
        match pyGet kvs "text".data .null with
        | .str t => extractTextItems rest (acc ++ t)
        | _ => none
      else extractTextItems rest acc
    | _ => extractTextItems rest acc

/-- `extract_tool_output` from `workflow.py`. -/
def extract_tool_output : PyVal → Option Str
  | .list items => extractTextItems items []
  | .str s => some s
  | _ => some []

/-- One entry of the `workflow_steps` list. -/
inductive WStep : Type where
  | reasoning (step : Nat) (content : Str)
  | tool (step : Nat) (name : PyVal) (message : Str) (input : PyVal)
      (output : Str) (status : PyVal) (tool_use_id : PyVal)

instance : Inhabited WStep := ⟨.reasoning 0 []⟩

/-- The `"step"` field of a workflow step. -/
def WStep.stepNum : WStep → Nat
  | .reasoning n _ => n
  | .tool n _ _ _ _ _ _ => n

/-- The `"tool_use_id"` field of a workflow step (`null` on reasoning steps). -/
def WStep.toolUseId : WStep → PyVal
  | .reasoning _ _ => .null
  | .tool _ _ _ _ _ _ tid => tid

/-- The `"output"` field of a workflow step (empty on reasoning steps). -/
def WStep.output : WStep → Str
  | .reasoning _ _ => []
  | .tool _ _ _ _ out _ _ => out

/-- A `tool` badge event dict as built by `handle_tool_result_block`. -/
structure Badge : Type where
  name : PyVal
  message : Str
  input : PyVal
  tool_use_id : PyVal

/-- `handle_reasoning_block` from `workflow.py`; `none` models the
`AttributeError` raised by `.strip()` on a non-string extracted value. -/
def handle_reasoning_block (block : List (Str × PyVal)) (workflow_steps : List WStep)
    (step_counter : Nat) : Option (List WStep × Nat) :=
  match extract_reasoning_content block with
  | .str reasoning_text =>
    if (pyStrip reasoning_text).isEmpty then some (workflow_steps, step_counter)
    else some (workflow_steps ++ [.reasoning (step_counter + 1) reasoning_text], step_counter + 1)
  | _ => none

/-- `handle_tool_use_block` from `workflow.py`; `none` models the
`AttributeError` raised by `.get` on a non-dict `toolUse` value. -/
def handle_tool_use_block (block : List (Str × PyVal)) (pending_tools : PendingMap) :
    Option PendingMap :=
  match pyGet block "toolUse".data (.dict []) with
  | .dict tool_use_block =>
    let tool_id := pyGet tool_use_block "toolUseId".data .null
    let tool_name := pyGet tool_use_block "name".data .null
    if !(pyTruthy tool_id && pyTruthy tool_name) then some pending_tools
    else
      some (pendingInsert pending_tools tool_id
        ⟨tool_name, workflow_tool_message tool_name, pyGet tool_use_block "input".data .null⟩)
  | _ => none

/-- `str(tool_content) if not isinstance(tool_content, str) else tool_content`
from `handle_tool_result_block`. -/
def content_str : PyVal → Str
  | .str s => s
  | v => pyToStr v

/-- The `truncated_output` computation of `handle_tool_result_block`: the
truncated extracted text when there is any, else the truncated rendering of
the raw truthy content, else the empty string. -/
def truncated_output_of (output_text : Str) (tool_content : PyVal) : Str :=
  if !output_text.isEmpty then truncate_output output_text MAX_OUTPUT_LENGTH
  else if pyTruthy tool_content then truncate_output (content_str tool_content) MAX_OUTPUT_LENGTH
  else []

/-- `handle_tool_result_block` from `workflow.py`: correlates a tool-result
block with the pending-tool map and, on success, appends one `tool` workflow
step and returns a badge.  Result components: the updated pending map, the
updated step list, the updated counter, and the badge (if any). -/
def handle_tool_result_block (block : List (Str × PyVal)) (pending_tools : PendingMap)
    (workflow_steps : List WStep) (step_counter : Nat) :
    Option (PendingMap × List WStep × Nat × Option Badge) :=
  match pyGet block "toolResult".data (.dict []) with
  | .dict tool_result =>
    let tool_id := pyGet tool_result "toolUseId".data .null
    let tool_content := pyGet tool_result "content".data (.list [])
    match extract_tool_output tool_content with
    | none => none
    | some output_text =>
      let matched : Option (ToolInfo × PendingMap) :=
        if pyTruthy tool_id && pendingHasKey pending_tools tool_id then
          match pendingLookup pending_tools tool_id with
          | some info => some (info, pendingPop pending_tools tool_id)
          | none => none
        else
          match pending_tools with
          | [] => none
          | kv :: rest => some (kv.2, rest)
      match matched with
      | none => some (pending_tools, workflow_steps, step_counter, none)
      | some (tool_info, pending') =>
        let truncated_output := truncated_output_of output_text tool_content
        let status := pyGet tool_result "status".data (.str "success".data)
        some (pending',
          workflow_steps ++ [.tool (step_counter + 1) tool_info.name tool_info.message
            tool_info.input truncated_output status tool_id],
          step_counter + 1,
          some ⟨tool_info.name, tool_info.message, tool_info.input, tool_id⟩)
  | _ => none

/-- `process_assistant_message` from `workflow.py`. -/
def process_assistant_message (content_blocks : List PyVal) (workflow_steps : List WStep)
    (step_counter : Nat) (pending_tools : PendingMap) :
    Option (Nat × List WStep × PendingMap) :=
  match content_blocks with
  | [] => some (step_counter, workflow_steps, pending_tools)
  | b :: rest =>
    match b with
    | .dict kvs => do
      let (steps1, c1) ←
        if pyHasKey kvs "reasoningContent".data then
          handle_reasoning_block kvs workflow_steps step_counter
        else some (workflow_steps, step_counter)
      let pending1 ←
        if pyHasKey kvs "toolUse".data then handle_tool_use_block kvs pending_tools
        else some pending_tools
      process_assistant_message rest steps1 c1 pending1
    | _ => process_assistant_message rest workflow_steps step_counter pending_tools

/-- `process_user_message` from `workflow.py` (the badge accumulator starts
empty at the call site). -/
def process_user_message (content_blocks : List PyVal) (pending_tools : PendingMap)
    (workflow_steps : List WStep) (step_counter : Nat) (tool_badges : List Badge) :
    Option (Nat × List Badge × List WStep × PendingMap) :=
  match content_blocks with
  | [] => some (step_counter, tool_badges, workflow_steps, pending_tools)
  | b :: rest =>
    match b with
    | .dict kvs =>
      if pyHasKey kvs "toolResult".data then do
        let (pending', steps', c', badge) ←
          handle_tool_result_block kvs pending_tools workflow_steps step_counter
        process_user_message rest pending' steps' c'
          (tool_badges ++ (match badge with | some bd => [bd] | none => []))
      else process_user_message rest pending_tools workflow_steps step_counter tool_badges
    | _ => process_user_message rest pending_tools workflow_steps step_counter tool_badges

/-! ### `src/agent_service/src/utils/formatting.py` -/

/-- Python `needle in hay` on strings (substring containment). -/
def strContains (hay needle : Str) : Bool :=
  (List.range (hay.length + 1)).any (fun i => needle.isPrefixOf (hay.drop i))

/-- `s.lower()`, modelled as ASCII case folding. -/
def pyLower (s : Str) : Str := s.map Char.toLower

/-- An agent result object: just the `message` attribute that
`extract_final_response` reads off it. -/
structure AgentResult : Type where
  message : PyVal

/-- `extract_final_response` from `formatting.py`; `none` models the
`TypeError` raised by `full_response += block["text"]` on a non-string. -/
def extract_final_response (result : AgentResult) : Option Str :=
  if !pyTruthy result.message then some [] else
  match result.message with
  | .dict result_msg =>
    match pyGet result_msg "content".data (.list []) with
    | .list blocks => extractTextItems blocks []
    | other => do
      let items ← pyIter other
      extractTextItems items []
  | _ => some []

/-- `format_error_message` from `formatting.py`, as a function of the
exception's rendered text `str(error)`. -/
def format_error_message (error_msg : Str) : Str :=
  let low := pyLower error_msg
  if strContains low "validationexception".data then
    "Invalid request to AI model. Please check model configuration or try a different request.".data
  else if strContains low "error parsing tool call".data then
    "The model had trouble formatting its response. Please try rephrasing your question.".data
  else if strContains low "responseerror".data then
    "There was an error communicating with the model. Please try again.".data
  else if error_msg.contains ':' then
    "An error occurred: ".data ++ error_msg.takeWhile (fun c => c ≠ ':')
  else
    "An error occurred: ".data ++ error_msg

/-! ### `src/agent_service/src/events/stream.py` -/

/-- One normalized event yielded by `process_stream_event`. -/
inductive Event : Type where
  | token (content : PyVal)
  | toolBadge (b : Badge)
  | complete (response : Str) (workflow : Option (List WStep))

/-- A raw stream event, restricted to the four keys `process_stream_event`
reads (`event.get` of an absent key is the falsy `null`; the `"result"`
value, when present, is an agent result object, which is always truthy). -/
structure StreamEvent : Type where
  data : PyVal
  current_tool_use : PyVal
  message : PyVal
  result : Option AgentResult

/-- The `current_tool_use` guard block of `process_stream_event`: a truthy
live signal with a usable id and name updates the pending map (a non-dict
truthy value raises on `.get`, hence `none`); nothing else changes. -/
def stream_handle_current_tool_use (current_tool_use : PyVal)
    (pending_tools : PendingMap) : Option PendingMap :=
  if pyTruthy current_tool_use then
    match current_tool_use with
    | .dict tu =>
      let tool_name := pyGet tu "name".data .null
      let tool_id := pyGet tu "toolUseId".data .null
      if pyTruthy tool_id && pyTruthy tool_name then
        some (pendingInsert pending_tools tool_id
          ⟨tool_name, stream_tool_message tool_name, pyGet tu "input".data .null⟩)
      else some pending_tools
    | _ => none
  else some pending_tools

/-- The `message` guard block of `process_stream_event`: dispatches a truthy
dict message on its role.  Returns the updated counter, step list and
pending map plus the events this block yields (the tool badges). -/
def stream_handle_message (message : PyVal) (pending1 : PendingMap)
    (workflow_steps : List WStep) (step_counter : Nat) :
    Option (Nat × List WStep × PendingMap × List Event) :=
  if pyTruthy message then
    match message with
    | .dict msg =>
      let role := pyGet msg "role".data .null
      let contentV := pyGet msg "content".data (.list [])
      if pyBeq role (.str "assistant".data) then do
        let blocks ← pyIter contentV
        let (c', steps', pending') ←
          process_assistant_message blocks workflow_steps step_counter pending1
        some (c', steps', pending', ([] : List Event))
      else if pyBeq role (.str "user".data) then do
        let blocks ← pyIter contentV
        let (c', badges, steps', pending') ←
          process_user_message blocks pending1 workflow_steps step_counter []
        some (c', steps', pending', badges.map Event.toolBadge)
      else some (step_counter, workflow_steps, pending1, ([] : List Event))
    | _ => some (step_counter, workflow_steps, pending1, ([] : List Event))
  else some (step_counter, workflow_steps, pending1, ([] : List Event))

/-- The `result` guard block of `process_stream_event`: a completion result
yields one `complete` event carrying the extracted response and, when any
steps were recorded, the workflow list. -/
def stream_handle_result (result : Option AgentResult) (steps2 : List WStep) :
    Option (List Event) :=
  match result with
  | some r => do
    let full_response ← extract_final_response r
    some [Event.complete full_response
      (if steps2.isEmpty then none else some steps2)]
  | none => some ([] : List Event)

/-- `process_stream_event` from `stream.py`: the token yield, the three
guard blocks above in order, and the final event batch.  Result components:
the updated step counter, the events to yield (in yield order), the updated
workflow-step list, and the updated pending-tool map. -/
def process_stream_event (event : StreamEvent) (pending_tools : PendingMap)
    (workflow_steps : List WStep) (step_counter : Nat) :
    Option (Nat × List Event × List WStep × PendingMap) := do
  let evs1 : List Event := if pyTruthy event.data then [.token event.data] else []
  let pending1 ← stream_handle_current_tool_use event.current_tool_use pending_tools
  let (counter2, steps2, pending2, evs2) ←
    stream_handle_message event.message pending1 workflow_steps step_counter
  let evs3 ← stream_handle_result event.result steps2
  some (counter2, evs1 ++ evs2 ++ evs3, steps2, pending2)

/-! ### `src/agent_service/src/utils/session_cleanup.py`

A session directory is modelled by its modification time (seconds) paired
with an identifier standing for its path; `cleanup_sessions` returns the
surviving sessions and the identifiers of the removed ones. -/

/-- Insert a session into a list already sorted by modification time,
before the first strictly newer entry (so the sort below is stable, like
Python's `list.sort`). -/
def insertByMtime (a : Int × Nat) : List (Int × Nat) → List (Int × Nat)
  | [] => [a]
  | b :: rest => if b.1 < a.1 then b :: insertByMtime a rest else a :: b :: rest

/-- Stable sort of sessions by modification time (oldest first), modelling
`filtered_sessions.sort(key=lambda t: t[0])`. -/
def sortByMtime : List (Int × Nat) → List (Int × Nat)
  | [] => []
  | a :: rest => insertByMtime a (sortByMtime rest)

/-- `cleanup_sessions` from `session_cleanup.py`.  Pass 1 removes sessions
with `now - mtime > ttl_hours * 3600`; pass 2 sorts the survivors by
modification time and removes the oldest ones until at most `max_sessions`
remain. -/
def cleanup_sessions (sessions : List (Int × Nat)) (now : Int) (ttl_hours : Nat)
    (max_sessions : Nat) : List (Int × Nat) × List Nat :=
  let ttl_seconds : Int := (ttl_hours : Int) * 3600
  let removed1 := (sessions.filter (fun s => decide (now - s.1 > ttl_seconds))).map (fun s => s.2)
  let filtered := sessions.filter (fun s => !decide (now - s.1 > ttl_seconds))
  if filtered.length > max_sessions then
    let sorted := sortByMtime filtered
    let overflow := filtered.length - max_sessions
    (sorted.drop overflow, removed1 ++ (sorted.take overflow).map (fun s => s.2))
  else
    (filtered, removed1)

/-! ### Cancellation monitor (`src/agent_service/src/events/redis_client.py`) -/

/-- Modelled from the spec: `is_cancelled(task_id, now, last_check, interval)
-> (bool, new_last_check)` of the Cancellation Monitor — the implementation
file `redis_client.py` is absent from the sources, only its unit tests are
present.  "Polling is throttled — the broker is queried only if
`now - last_check >= interval`; otherwise returns `(False, last_check)`
unchanged."  `broker_flag` is the broker's answer when queried, and the third
component counts how many broker queries the call performs. -/
def is_task_cancelled (broker_flag : Bool) (now last_check interval : ℚ) :
    Bool × ℚ × Nat :=
  if now - last_check < interval then (false, last_check, 0)
  else (broker_flag, now, 1)

/-- The workflow steps `Δ` appended on top of a counter value `base` carry
the step numbers `base + 1, base + 2, …` in order. -/
def stepsNumbered (Δ : List WStep) (base : Nat) : Prop :=
  ∀ i, i < Δ.length → (Δ.getD i default).stepNum = base + i + 1

/-- One processing call took `(steps, c)` to `(steps', c')` by appending
consecutively numbered steps: the step list grows by a suffix `Δ`, the
counter grows by exactly `Δ.length`, and each appended step is numbered with
the counter value at the moment it was appended. -/
def TransOK (steps steps' : List WStep) (c c' : Nat) : Prop :=
  ∃ Δ, steps' = steps ++ Δ ∧ c' = c + Δ.length ∧ stepsNumbered Δ c

/-! ## Theorems -/

/-- The empty suffix is numbered over any base. -/
theorem stepsNumbered_nil (base : Nat) : stepsNumbered [] base := by
  intro i hi
  simp at hi

/-- A single step numbered `base + 1` is a numbered suffix. -/
theorem stepsNumbered_single (w : WStep) (base : Nat) (h : w.stepNum = base + 1) :
    stepsNumbered [w] base := by
  intro i hi
  simp only [List.length_singleton] at hi
  interval_cases i
  simpa using h

/-- Numbered suffixes concatenate. -/
theorem stepsNumbered_append {d1 d2 : List WStep} {b : Nat}
    (h1 : stepsNumbered d1 b) (h2 : stepsNumbered d2 (b + d1.length)) :
    stepsNumbered (d1 ++ d2) b := by
  intro i hi
  rw [List.length_append] at hi
  by_cases hlt : i < d1.length
  · rw [List.getD_append _ _ _ _ hlt]
    exact h1 i hlt
  · rw [List.getD_append_right _ _ _ _ (le_of_not_lt hlt)]
    have h3 := h2 (i - d1.length) (by omega)
    rw [h3]
    omega

/-- `TransOK` composes transitively. -/
theorem TransOK_trans {s1 s2 s3 : List WStep} {c1 c2 c3 : Nat}
    (h1 : TransOK s1 s2 c1 c2) (h2 : TransOK s2 s3 c2 c3) : TransOK s1 s3 c1 c3 := by
  obtain ⟨d1, e1, f1, g1⟩ := h1
  obtain ⟨d2, e2, f2, g2⟩ := h2
  refine ⟨d1 ++ d2, by rw [e2, e1, List.append_assoc], by rw [f2, f1]; simp [Nat.add_assoc], ?_⟩
  exact stepsNumbered_append g1 (by rwa [f1] at g2)

/-- The identity transition is `TransOK`. -/
theorem TransOK_refl (steps : List WStep) (c : Nat) : TransOK steps steps c c :=
  ⟨[], by simp, by simp, stepsNumbered_nil c⟩

/-- A reasoning block that returns appends a numbered suffix. -/
theorem handle_reasoning_block_transOK (block : List (Str × PyVal)) (steps steps' : List WStep)
    (c c' : Nat) (h : handle_reasoning_block block steps c = some (steps', c')) :
    TransOK steps steps' c c' := by
  unfold handle_reasoning_block at h
  cases hext : extract_reasoning_content block with
  | str t =>
    rw [hext] at h
    dsimp only at h
    by_cases hstrip : (pyStrip t).isEmpty = true
    · rw [if_pos hstrip] at h
      simp only [Option.some.injEq, Prod.mk.injEq] at h
      obtain ⟨h1, h2⟩ := h
      rw [← h1, ← h2]
      exact TransOK_refl steps c
    · rw [if_neg hstrip] at h
      simp only [Option.some.injEq, Prod.mk.injEq] at h
      obtain ⟨h1, h2⟩ := h
      exact ⟨[.reasoning (c + 1) t], h1.symm, by rw [← h2]; rfl,
        stepsNumbered_single _ _ rfl⟩
  | null => rw [hext] at h; simp at h
  | int n => rw [hext] at h; simp at h
  | list xs => rw [hext] at h; simp at h
  | dict kvs => rw [hext] at h; simp at h

/-- A tool-result block that returns appends a numbered suffix. -/
theorem handle_tool_result_block_transOK (block : List (Str × PyVal)) (pending : PendingMap)
    (steps : List WStep) (c : Nat) (p' : PendingMap) (steps' : List WStep) (c' : Nat)
    (b : Option Badge)
    (h : handle_tool_result_block block pending steps c = some (p', steps', c', b)) :
    TransOK steps steps' c c' := by
  unfold handle_tool_result_block at h
  cases hblk : pyGet block "toolResult".data (.dict []) with
  | dict tr =>
    rw [hblk] at h
    dsimp only at h
    cases hex : extract_tool_output (pyGet tr "content".data (.list [])) with
    | none => rw [hex] at h; simp at h
    | some out =>
      rw [hex] at h
      dsimp only at h
      by_cases hcond : (pyTruthy (pyGet tr "toolUseId".data .null)
          && pendingHasKey pending (pyGet tr "toolUseId".data .null)) = true
      · rw [if_pos hcond] at h
        cases hl : pendingLookup pending (pyGet tr "toolUseId".data .null) with
        | none =>
          rw [hl] at h
          cases h
          exact TransOK_refl steps c
        | some info =>
          rw [hl] at h
          simp only [Option.some.injEq, Prod.mk.injEq] at h
          obtain ⟨-, h2, h3, -⟩ := h
          exact ⟨[.tool (c + 1) info.name info.message info.input _ _ _], h2.symm,
            by rw [← h3]; rfl, stepsNumbered_single _ _ rfl⟩
      · rw [if_neg hcond] at h
        cases pending with
        | nil =>
          simp only [Option.some.injEq, Prod.mk.injEq] at h
          obtain ⟨-, h2, h3, -⟩ := h
          rw [← h2, ← h3]
          exact TransOK_refl steps c
        | cons kv rest =>
          simp only [Option.some.injEq, Prod.mk.injEq] at h
          obtain ⟨-, h2, h3, -⟩ := h
          exact ⟨[.tool (c + 1) kv.2.name kv.2.message kv.2.input _ _ _], h2.symm,
            by rw [← h3]; rfl, stepsNumbered_single _ _ rfl⟩
  | null => rw [hblk] at h; simp at h
  | str s => rw [hblk] at h; simp at h
  | int n => rw [hblk] at h; simp at h
  | list xs => rw [hblk] at h; simp at h

/-- Assistant-message processing appends a numbered suffix. -/
theorem process_assistant_message_transOK : ∀ (blocks : List PyVal) (steps : List WStep)
    (c : Nat) (pending : PendingMap) (c' : Nat) (steps' : List WStep) (p' : PendingMap),
    process_assistant_message blocks steps c pending = some (c', steps', p') →
    TransOK steps steps' c c' := by
  intro blocks
  induction blocks with
  | nil =>
    intro steps c pending c' steps' p' h
    unfold process_assistant_message at h
    simp only [Option.some.injEq, Prod.mk.injEq] at h
    obtain ⟨h1, h2, -⟩ := h
    rw [← h1, ← h2]
    exact TransOK_refl steps c
  | cons b rest ih =>
    intro steps c pending c' steps' p' h
    unfold process_assistant_message at h
    cases b with
    | dict kvs =>
      dsimp only at h
      by_cases hr : pyHasKey kvs "reasoningContent".data = true
      · rw [if_pos hr] at h
        cases hrb : handle_reasoning_block kvs steps c with
        | none => rw [hrb] at h; simp at h
        | some v =>
          obtain ⟨steps1, c1⟩ := v
          rw [hrb] at h
          try simp only [Option.bind_eq_bind, Option.some_bind] at h
          by_cases ht : pyHasKey kvs "toolUse".data = true
          · rw [if_pos ht] at h
            cases htb : handle_tool_use_block kvs pending with
            | none => rw [htb] at h; simp at h
            | some pending1 =>
              rw [htb] at h
              try simp only [Option.bind_eq_bind, Option.some_bind] at h
              exact TransOK_trans (handle_reasoning_block_transOK _ _ _ _ _ hrb)
                (ih _ _ _ _ _ _ h)
          · rw [if_neg ht] at h
            try simp only [Option.bind_eq_bind, Option.some_bind] at h
            exact TransOK_trans (handle_reasoning_block_transOK _ _ _ _ _ hrb)
              (ih _ _ _ _ _ _ h)
      · rw [if_neg hr] at h
        try simp only [Option.bind_eq_bind, Option.some_bind] at h
        by_cases ht : pyHasKey kvs "toolUse".data = true
        · rw [if_pos ht] at h
          cases htb : handle_tool_use_block kvs pending with
          | none => rw [htb] at h; simp at h
          | some pending1 =>
            rw [htb] at h
            try simp only [Option.bind_eq_bind, Option.some_bind] at h
            exact ih _ _ _ _ _ _ h
        · rw [if_neg ht] at h
          try simp only [Option.bind_eq_bind, Option.some_bind] at h
          exact ih _ _ _ _ _ _ h
    | null => exact ih _ _ _ _ _ _ h
    | str s => exact ih _ _ _ _ _ _ h
    | int n => exact ih _ _ _ _ _ _ h
    | list xs => exact ih _ _ _ _ _ _ h

/-- User-message (tool-result) processing appends a numbered suffix. -/
theorem process_user_message_transOK : ∀ (blocks : List PyVal) (pending : PendingMap)
    (steps : List WStep) (c : Nat) (badges : List Badge) (c' : Nat) (badges' : List Badge)
    (steps' : List WStep) (p' : PendingMap),
    process_user_message blocks pending steps c badges = some (c', badges', steps', p') →
    TransOK steps steps' c c' := by
  intro blocks
  induction blocks with
  | nil =>
    intro pending steps c badges c' badges' steps' p' h
    unfold process_user_message at h
    simp only [Option.some.injEq, Prod.mk.injEq] at h
    obtain ⟨h1, -, h2, -⟩ := h
    rw [← h1, ← h2]
    exact TransOK_refl steps c
  | cons b rest ih =>
    intro pending steps c badges c' badges' steps' p' h
    unfold process_user_message at h
    cases b with
    | dict kvs =>
      dsimp only at h
      by_cases ht : pyHasKey kvs "toolResult".data = true
      · rw [if_pos ht] at h
        cases htr : handle_tool_result_block kvs pending steps c with
        | none => rw [htr] at h; simp at h
        | some v =>
          obtain ⟨pending1, steps1, c1, badge⟩ := v
          rw [htr] at h
          try simp only [Option.bind_eq_bind, Option.some_bind] at h
          exact TransOK_trans (handle_tool_result_block_transOK _ _ _ _ _ _ _ _ htr)
            (ih _ _ _ _ _ _ _ _ h)
      · rw [if_neg ht] at h
        exact ih _ _ _ _ _ _ _ _ h
    | null => exact ih _ _ _ _ _ _ _ _ h
    | str s => exact ih _ _ _ _ _ _ _ _ h
    | int n => exact ih _ _ _ _ _ _ _ _ h
    | list xs => exact ih _ _ _ _ _ _ _ _ h

/-- C3: a reasoning block with whitespace-only extracted text appends no
workflow step and leaves the counter unchanged; a reasoning block with
non-whitespace text appends exactly one `reasoning` step and increases the
counter by exactly 1. -/
theorem handle_reasoning_block_spec (block : List (Str × PyVal)) (steps : List WStep)
    (counter : Nat) (text : Str)
    (hext : extract_reasoning_content block = .str text) :
    (pyStrip text = [] → handle_reasoning_block block steps counter = some (steps, counter)) ∧
    (pyStrip text ≠ [] →
      handle_reasoning_block block steps counter
        = some (steps ++ [.reasoning (counter + 1) text], counter + 1)) := by
  unfold handle_reasoning_block
  rw [hext]
  constructor
  · intro h
    simp [h]
  · intro h
    simp [List.isEmpty_iff, h]

/-- Witness for C3: on a concrete reasoning block the step is appended with
the counter moving from 0 to 1. -/
theorem handle_reasoning_block_spec_witness :
    handle_reasoning_block
      [("reasoningContent".data, .dict [("reasoningText".data,
          .dict [("text".data, .str "Thinking".data)])])] [] 0
      = some ([.reasoning 1 "Thinking".data], 1) :=
  (handle_reasoning_block_spec
    [("reasoningContent".data, .dict [("reasoningText".data,
        .dict [("text".data, .str "Thinking".data)])])]
    [] 0 "Thinking".data rfl).2 (by decide)

/-- C4: the cancellation check is throttled — when `now - last_check` is
strictly below the interval the broker is not queried (query count 0) and
`(false, last_check)` is returned unchanged; at or beyond the interval the
broker is queried exactly once and the new `last_check` is `now`, whatever
the broker answered. -/
theorem is_task_cancelled_spec (broker_flag : Bool) (now last_check interval : ℚ) :
    (now - last_check < interval →
      is_task_cancelled broker_flag now last_check interval = (false, last_check, 0)) ∧
    (interval ≤ now - last_check →
      is_task_cancelled broker_flag now last_check interval = (broker_flag, now, 1)) := by
  unfold is_task_cancelled
  constructor
  · intro h
    simp [h]
  · intro h
    simp [not_lt.mpr h]

/-- Witness for C4: below the 5-second interval nothing is queried even with
the flag set; past it the flag is read and `last_check` becomes `now`. -/
theorem is_task_cancelled_spec_witness :
    is_task_cancelled true 7 5 5 = (false, 5, 0) ∧
    is_task_cancelled true 11 5 5 = (true, 11, 1) :=
  ⟨(is_task_cancelled_spec true 7 5 5).1 (by norm_num),
   (is_task_cancelled_spec true 11 5 5).2 (by norm_num)⟩

/-- `d.get(k, dflt)` returns the default when the key is absent. -/
theorem pyGet_of_hasKey_eq_false (kvs : List (Str × PyVal)) (k : Str) (d : PyVal)
    (h : pyHasKey kvs k = false) : pyGet kvs k d = d := by
  unfold pyHasKey at h
  unfold pyGet
  cases hf : List.find? (fun kv => kv.1 == k) kvs with
  | none => rfl
  | some kv => rw [hf] at h; simp at h

/-- C6: announcing a tool call emits nothing.  A live `current_tool_use`
signal with a usable id and name (processed here as the only content of its
stream event, so that the other branches of `process_stream_event`
contribute nothing of their own) inserts or updates the pending entry under
the tool-use id but yields no event, appends no workflow step and leaves the
counter unchanged; a finalized assistant tool-use block does the same
through `process_assistant_message`. -/
theorem tool_announcement_emits_nothing
    (tu kvs tub : List (Str × PyVal)) (pending : PendingMap) (steps : List WStep)
    (counter : Nat) :
    (pyTruthy (pyGet tu "toolUseId".data .null) = true →
     pyTruthy (pyGet tu "name".data .null) = true →
      process_stream_event ⟨.null, .dict tu, .null, none⟩ pending steps counter
        = some (counter, [], steps,
            pendingInsert pending (pyGet tu "toolUseId".data .null)
              ⟨pyGet tu "name".data .null, stream_tool_message (pyGet tu "name".data .null),
               pyGet tu "input".data .null⟩)) ∧
    (pyGet kvs "toolUse".data (.dict []) = .dict tub →
     pyHasKey kvs "reasoningContent".data = false →
     pyTruthy (pyGet tub "toolUseId".data .null) = true →
     pyTruthy (pyGet tub "name".data .null) = true →
      process_assistant_message [.dict kvs] steps counter pending
        = some (counter, steps,
            pendingInsert pending (pyGet tub "toolUseId".data .null)
              ⟨pyGet tub "name".data .null, workflow_tool_message (pyGet tub "name".data .null),
               pyGet tub "input".data .null⟩)) := by
  constructor
  · intro h1 h2
    have htu : tu ≠ [] := by
      intro e
      subst e
      simp [pyGet, pyTruthy] at h1
    have hdict : pyTruthy (.dict tu) = true := by
      cases tu with
      | nil => exact absurd rfl htu
      | cons a l => simp [pyTruthy]
    simp [process_stream_event, stream_handle_current_tool_use, stream_handle_message,
      stream_handle_result, hdict, h1, h2]
    rfl
  · intro hget hreason h3 h4
    have htu : pyHasKey kvs "toolUse".data = true := by
      cases hk : pyHasKey kvs "toolUse".data with
      | true => rfl
      | false =>
        rw [pyGet_of_hasKey_eq_false _ _ _ hk] at hget
        cases hget
        simp [pyGet, pyTruthy] at h3
    simp [process_assistant_message, hreason, htu, handle_tool_use_block, hget, h3, h4]

/-- Witness for C6: a concrete live signal and a concrete finalized tool-use
block each update the pending map and emit nothing. -/
theorem tool_announcement_emits_nothing_witness :
    (process_stream_event
        ⟨.null, .dict [("name".data, .str "query".data), ("toolUseId".data, .str "tool-123".data)],
         .null, none⟩ [] [] 0
      = some (0, [], [],
          pendingInsert []
            (pyGet [("name".data, .str "query".data), ("toolUseId".data, .str "tool-123".data)]
              "toolUseId".data .null)
            ⟨pyGet [("name".data, .str "query".data), ("toolUseId".data, .str "tool-123".data)]
              "name".data .null,
             stream_tool_message (pyGet [("name".data, .str "query".data),
               ("toolUseId".data, .str "tool-123".data)] "name".data .null),
             pyGet [("name".data, .str "query".data), ("toolUseId".data, .str "tool-123".data)]
              "input".data .null⟩)) ∧
    (process_assistant_message
        [.dict [("toolUse".data, .dict [("toolUseId".data, .str "t1".data),
            ("name".data, .str "query".data)])]] [] 0 []
      = some (0, [],
          pendingInsert []
            (pyGet [("toolUseId".data, .str "t1".data), ("name".data, .str "query".data)]
              "toolUseId".data .null)
            ⟨pyGet [("toolUseId".data, .str "t1".data), ("name".data, .str "query".data)]
              "name".data .null,
             workflow_tool_message (pyGet [("toolUseId".data, .str "t1".data),
               ("name".data, .str "query".data)] "name".data .null),
             pyGet [("toolUseId".data, .str "t1".data), ("name".data, .str "query".data)]
              "input".data .null⟩)) :=
  ⟨(tool_announcement_emits_nothing
      [("name".data, .str "query".data), ("toolUseId".data, .str "tool-123".data)]
      [] [] [] [] 0).1 (by decide) (by decide),
   (tool_announcement_emits_nothing []
      [("toolUse".data, .dict [("toolUseId".data, .str "t1".data), ("name".data, .str "query".data)])]
      [("toolUseId".data, .str "t1".data), ("name".data, .str "query".data)]
      [] [] 0).2 rfl (by decide) (by decide) (by decide)⟩

/-- Structurally equal Python values have the same truthiness. -/
theorem pyBeq_truthy (a b : PyVal) (h : pyBeq a b = true) : pyTruthy a = pyTruthy b := by
  cases a <;> cases b <;> simp_all [pyBeq, pyTruthy]
  · next xs ys =>
    cases xs <;> cases ys <;> simp_all [pyBeqList]
  · next xs ys =>
    cases xs <;> cases ys <;> simp_all [pyBeqDict]

/-- A key is in the pending map exactly when looking it up succeeds. -/
theorem pendingHasKey_iff_lookup (pending : PendingMap) (k : PyVal) :
    pendingHasKey pending k = true ↔ (pendingLookup pending k).isSome := by
  simp [pendingHasKey, pendingLookup, List.any_eq_true, List.find?_isSome]

/-- When every pending key is truthy, a key that is present is truthy. -/
theorem pendingLookup_truthy (pending : PendingMap) (k : PyVal) (info : ToolInfo)
    (hkeys : ∀ kv ∈ pending, pyTruthy kv.1 = true)
    (h : pendingLookup pending k = some info) : pyTruthy k = true := by
  unfold pendingLookup at h
  cases hf : List.find? (fun kv => pyBeq kv.1 k) pending with
  | none => rw [hf] at h; cases h
  | some kv =>
    have hmem := List.mem_of_find?_eq_some hf
    have hbeq := List.find?_some hf
    rw [← pyBeq_truthy kv.1 k hbeq]
    exact hkeys kv hmem

/-- C1: tool-result correlation.  With a pending map whose keys are all
truthy (the invariant maintained by both insertion sites): a result whose
`toolUseId` is a pending key pops that entry, whose stored name, message and
input label the appended `tool` step and the returned badge; a result whose
id is not a pending key pops the oldest (head) pending entry instead; and a
result arriving on an empty pending map appends no step, returns no badge
and leaves the counter unchanged. -/
theorem tool_result_correlation_spec
    (block tr : List (Str × PyVal)) (pending : PendingMap) (steps : List WStep)
    (counter : Nat) (output_text : Str)
    (hblock : pyGet block "toolResult".data (.dict []) = .dict tr)
    (hkeys : ∀ kv ∈ pending, pyTruthy kv.1 = true)
    (hext : extract_tool_output (pyGet tr "content".data (.list [])) = some output_text) :
    (∀ info, pendingLookup pending (pyGet tr "toolUseId".data .null) = some info →
      handle_tool_result_block block pending steps counter
        = some (pendingPop pending (pyGet tr "toolUseId".data .null),
            steps ++ [.tool (counter + 1) info.name info.message info.input
              (truncated_output_of output_text (pyGet tr "content".data (.list [])))
              (pyGet tr "status".data (.str "success".data)) (pyGet tr "toolUseId".data .null)],
            counter + 1,
            some ⟨info.name, info.message, info.input, pyGet tr "toolUseId".data .null⟩)) ∧
    (pendingLookup pending (pyGet tr "toolUseId".data .null) = none →
      ∀ k0 info0 rest, pending = (k0, info0) :: rest →
      handle_tool_result_block block pending steps counter
        = some (rest,
            steps ++ [.tool (counter + 1) info0.name info0.message info0.input
              (truncated_output_of output_text (pyGet tr "content".data (.list [])))
              (pyGet tr "status".data (.str "success".data)) (pyGet tr "toolUseId".data .null)],
            counter + 1,
            some ⟨info0.name, info0.message, info0.input, pyGet tr "toolUseId".data .null⟩)) ∧
    (pending = [] →
      handle_tool_result_block block pending steps counter = some ([], steps, counter, none)) := by
  simp only [handle_tool_result_block, hblock, hext]
  refine ⟨fun info hl => ?_, fun hl k0 info0 rest hp => ?_, fun hp => ?_⟩
  · have htr : pyTruthy (pyGet tr "toolUseId".data .null) = true :=
      pendingLookup_truthy pending _ info hkeys hl
    have hhk : pendingHasKey pending (pyGet tr "toolUseId".data .null) = true := by
      rw [pendingHasKey_iff_lookup, hl]
      rfl
    simp only [htr, hhk, Bool.and_self, if_true, hl]
  · have hhk : pendingHasKey pending (pyGet tr "toolUseId".data .null) = false := by
      cases hk : pendingHasKey pending (pyGet tr "toolUseId".data .null) with
      | false => rfl
      | true =>
        rw [pendingHasKey_iff_lookup, hl] at hk
        cases hk
    subst hp
    simp only [hhk, Bool.and_false, if_false]
    rfl
  · subst hp
    simp [pendingHasKey]

/-- Witness for C1: a matching id pops its own entry; with no pending entry
the result is dropped silently. -/
theorem tool_result_correlation_spec_witness :
    (handle_tool_result_block
        [("toolResult".data, .dict [("toolUseId".data, .str "t1".data),
            ("content".data, .list [.dict [("text".data, .str "Done".data)]]),
            ("status".data, .str "success".data)])]
        [(.str "t1".data, ⟨.str "query".data, "m".data, .null⟩)] [] 0
      = some (pendingPop [(.str "t1".data, ⟨.str "query".data, "m".data, .null⟩)]
            (pyGet [("toolUseId".data, .str "t1".data),
              ("content".data, .list [.dict [("text".data, .str "Done".data)]]),
              ("status".data, .str "success".data)] "toolUseId".data .null),
          [.tool 1 (.str "query".data) "m".data .null
            (truncated_output_of "Done".data
              (pyGet [("toolUseId".data, .str "t1".data),
                ("content".data, .list [.dict [("text".data, .str "Done".data)]]),
                ("status".data, .str "success".data)] "content".data (.list [])))
            (pyGet [("toolUseId".data, .str "t1".data),
              ("content".data, .list [.dict [("text".data, .str "Done".data)]]),
              ("status".data, .str "success".data)] "status".data (.str "success".data))
            (pyGet [("toolUseId".data, .str "t1".data),
              ("content".data, .list [.dict [("text".data, .str "Done".data)]]),
              ("status".data, .str "success".data)] "toolUseId".data .null)],
          1,
          some ⟨.str "query".data, "m".data, .null,
            pyGet [("toolUseId".data, .str "t1".data),
              ("content".data, .list [.dict [("text".data, .str "Done".data)]]),
              ("status".data, .str "success".data)] "toolUseId".data .null⟩)) ∧
    handle_tool_result_block
        [("toolResult".data, .dict [("toolUseId".data, .str "unknown".data),
            ("content".data, .list [])])] [] [] 0
      = some ([], [], 0, none) :=
  ⟨(tool_result_correlation_spec
      [("toolResult".data, .dict [("toolUseId".data, .str "t1".data),
          ("content".data, .list [.dict [("text".data, .str "Done".data)]]),
          ("status".data, .str "success".data)])]
      [("toolUseId".data, .str "t1".data),
        ("content".data, .list [.dict [("text".data, .str "Done".data)]]),
        ("status".data, .str "success".data)]
      [(.str "t1".data, ⟨.str "query".data, "m".data, .null⟩)] [] 0 "Done".data
      rfl (by decide) rfl).1 ⟨.str "query".data, "m".data, .null⟩ rfl,
   (tool_result_correlation_spec
      [("toolResult".data, .dict [("toolUseId".data, .str "unknown".data),
          ("content".data, .list [])])]
      [("toolUseId".data, .str "unknown".data), ("content".data, .list [])]
      [] [] 0 [] rfl (by decide) rfl).2.2 rfl⟩

/-- C8: the step counter is monotonic and shared.  Whenever
`process_stream_event` returns, the new counter is at least the old one, it
grows by exactly the number of workflow steps appended during the call, and
the appended steps (reasoning and tool alike) are numbered consecutively
with the counter value at the moment each was appended. -/
theorem step_counter_monotonic (event : StreamEvent) (pending : PendingMap)
    (steps : List WStep) (c : Nat) (c' : Nat) (evs : List Event) (steps' : List WStep)
    (p' : PendingMap)
    (h : process_stream_event event pending steps c = some (c', evs, steps', p')) :
    c ≤ c' ∧ ∃ d, steps' = steps ++ d ∧ c' = c + d.length ∧ stepsNumbered d c := by
  have htrans : TransOK steps steps' c c' := by
    simp only [process_stream_event, Option.bind_eq_bind, Option.bind_eq_some] at h
    obtain ⟨pending1, hP, h⟩ := h
    obtain ⟨⟨c2, steps2, pending2, evs2⟩, hM, h⟩ := h
    obtain ⟨evs3, hR, h⟩ := h
    simp only [Option.some.injEq, Prod.mk.injEq] at h
    obtain ⟨h1, -, h2, -⟩ := h
    rw [← h1, ← h2]
    unfold stream_handle_message at hM
    by_cases hmsg : pyTruthy event.message = true
    · rw [if_pos hmsg] at hM
      cases hmv : event.message with
      | dict msg =>
        rw [hmv] at hM
        dsimp only at hM
        by_cases hrole : pyBeq (pyGet msg "role".data .null) (.str "assistant".data) = true
        · rw [if_pos hrole] at hM
          simp only [Option.bind_eq_bind, Option.bind_eq_some] at hM
          obtain ⟨blocks, hB, hM⟩ := hM
          obtain ⟨⟨ca, stepsa, pa⟩, hA, hM⟩ := hM
          simp only [Option.some.injEq, Prod.mk.injEq] at hM
          obtain ⟨hMa, hMb, -, -⟩ := hM
          rw [← hMa, ← hMb]
          exact process_assistant_message_transOK _ _ _ _ _ _ _ hA
        · rw [if_neg hrole] at hM
          by_cases huser : pyBeq (pyGet msg "role".data .null) (.str "user".data) = true
          · rw [if_pos huser] at hM
            simp only [Option.bind_eq_bind, Option.bind_eq_some] at hM
            obtain ⟨blocks, hB, hM⟩ := hM
            obtain ⟨⟨cu, badgesu, stepsu, pu⟩, hU, hM⟩ := hM
            simp only [Option.some.injEq, Prod.mk.injEq] at hM
            obtain ⟨hMa, hMb, -, -⟩ := hM
            rw [← hMa, ← hMb]
            exact process_user_message_transOK _ _ _ _ _ _ _ _ _ hU
          · rw [if_neg huser] at hM
            simp only [Option.some.injEq, Prod.mk.injEq] at hM
            obtain ⟨hMa, hMb, -, -⟩ := hM
            rw [← hMa, ← hMb]
            exact TransOK_refl steps c
      | null =>
        rw [hmv] at hM
        simp only [Option.some.injEq, Prod.mk.injEq] at hM
        obtain ⟨hMa, hMb, -, -⟩ := hM
        rw [← hMa, ← hMb]
        exact TransOK_refl steps c
      | str s =>
        rw [hmv] at hM
        simp only [Option.some.injEq, Prod.mk.injEq] at hM
        obtain ⟨hMa, hMb, -, -⟩ := hM
        rw [← hMa, ← hMb]
        exact TransOK_refl steps c
      | int n =>
        rw [hmv] at hM
        simp only [Option.some.injEq, Prod.mk.injEq] at hM
        obtain ⟨hMa, hMb, -, -⟩ := hM
        rw [← hMa, ← hMb]
        exact TransOK_refl steps c
      | list xs =>
        rw [hmv] at hM
        simp only [Option.some.injEq, Prod.mk.injEq] at hM
        obtain ⟨hMa, hMb, -, -⟩ := hM
        rw [← hMa, ← hMb]
        exact TransOK_refl steps c
    · rw [if_neg hmsg] at hM
      simp only [Option.some.injEq, Prod.mk.injEq] at hM
      obtain ⟨hMa, hMb, -, -⟩ := hM
      rw [← hMa, ← hMb]
      exact TransOK_refl steps c
  obtain ⟨d, e, f, g⟩ := htrans
  exact ⟨by rw [f]; exact Nat.le_add_right _ _, d, e, f, g⟩

/-- Witness for C8: an assistant message with one reasoning block takes the
counter from 0 to 1 by appending the single step numbered 1. -/
theorem step_counter_monotonic_witness :
    0 ≤ 1 ∧ ∃ d, [WStep.reasoning 1 "Need to query database".data] = [] ++ d ∧
      1 = 0 + d.length ∧ stepsNumbered d 0 :=
  step_counter_monotonic
    ⟨.null, .null, .dict [("role".data, .str "assistant".data), ("content".data, .list
      [.dict [("reasoningContent".data, .dict [("reasoningText".data,
        .dict [("text".data, .str "Need to query database".data)])])]])], none⟩
    [] [] 0 1 [] [WStep.reasoning 1 "Need to query database".data] [] rfl

/-- C9: when fallback correlation fires (the result's `toolUseId` is not a
truthy pending key, and the oldest pending entry — the head — is consumed),
the appended step and the badge carry the result block's `toolUseId`, not
the key `k0` under which the consumed entry was stored, although name,
message and input come from that entry. -/
theorem fallback_result_id_mismatch
    (block tr : List (Str × PyVal)) (k0 : PyVal) (info0 : ToolInfo)
    (rest : PendingMap) (steps : List WStep) (counter : Nat) (output_text : Str)
    (hblock : pyGet block "toolResult".data (.dict []) = .dict tr)
    (hext : extract_tool_output (pyGet tr "content".data (.list [])) = some output_text)
    (hfb : (pyTruthy (pyGet tr "toolUseId".data .null)
        && pendingHasKey ((k0, info0) :: rest) (pyGet tr "toolUseId".data .null)) = false) :
    handle_tool_result_block block ((k0, info0) :: rest) steps counter
      = some (rest,
          steps ++ [.tool (counter + 1) info0.name info0.message info0.input
            (truncated_output_of output_text (pyGet tr "content".data (.list [])))
            (pyGet tr "status".data (.str "success".data)) (pyGet tr "toolUseId".data .null)],
          counter + 1,
          some ⟨info0.name, info0.message, info0.input, pyGet tr "toolUseId".data .null⟩) := by
  simp only [handle_tool_result_block, hblock, hext, hfb, if_false]
  rfl

/-- Witness for C9: a result with no `toolUseId` at all consumes the entry
stored under `"t1"`, and the recorded `tool_use_id` is `null`, which differs
from the stored key. -/
theorem fallback_result_id_mismatch_witness :
    handle_tool_result_block [("toolResult".data, .dict [("content".data, .str "out".data)])]
        [(.str "t1".data, ⟨.str "query".data, "m".data, .null⟩)] [] 0
      = some ([],
          [.tool 1 (.str "query".data) "m".data .null
            (truncated_output_of "out".data
              (pyGet [("content".data, .str "out".data)] "content".data (.list [])))
            (pyGet [("content".data, .str "out".data)] "status".data (.str "success".data))
            (pyGet [("content".data, .str "out".data)] "toolUseId".data .null)],
          1, some ⟨.str "query".data, "m".data, .null,
            pyGet [("content".data, .str "out".data)] "toolUseId".data .null⟩) ∧
    pyGet [("content".data, .str "out".data)] "toolUseId".data .null ≠ .str "t1".data :=
  ⟨fallback_result_id_mismatch [("toolResult".data, .dict [("content".data, .str "out".data)])]
      [("content".data, .str "out".data)] (.str "t1".data) ⟨.str "query".data, "m".data, .null⟩
      [] [] 0 "out".data rfl rfl (by decide),
   fun h => by cases h⟩

/-- `Nat.toDigitsCore` never empties a non-empty accumulator. -/
theorem toDigitsCore_ne_nil (b fuel n : Nat) (ds : List Char) (h : ds ≠ []) :
    Nat.toDigitsCore b fuel n ds ≠ [] := by
  induction fuel generalizing n ds with
  | zero => simpa [Nat.toDigitsCore] using h
  | succ f ih =>
    simp only [Nat.toDigitsCore]
    split
    · simp
    · exact ih _ _ (by simp)

/-- The digit rendering of a natural number is never empty. -/
theorem toDigits_ne_nil (b n : Nat) : Nat.toDigits b n ≠ [] := by
  unfold Nat.toDigits
  simp only [Nat.toDigitsCore]
  split
  · simp
  · exact toDigitsCore_ne_nil _ _ _ _ (by simp)

/-- The decimal rendering of an integer is never the empty string. -/
theorem toString_int_ne_nil (n : Int) : (toString n).data ≠ [] := by
  show (Int.repr n).data ≠ []
  cases n with
  | ofNat m =>
    show (Nat.repr m).data ≠ []
    unfold Nat.repr
    simpa using toDigits_ne_nil 10 m
  | negSucc m =>
    show (("-" ++ Nat.repr (m + 1)).data) ≠ []
    simp [String.data_append]

/-- Truncation of a non-empty output is non-empty. -/
theorem truncate_output_ne_nil (s : Str) (n : Nat) (h : s ≠ []) :
    truncate_output s n ≠ [] := by
  unfold truncate_output
  split
  · exact h
  · intro hc
    simp only [List.append_eq_nil] at hc
    exact toString_int_ne_nil _ hc.1.2

/-- The raw rendering used by `content_str` is non-empty on truthy values. -/
theorem content_str_ne_nil (v : PyVal) (hv : pyTruthy v = true) : content_str v ≠ [] := by
  cases v with
  | null => simp [pyTruthy] at hv
  | str s =>
    simp only [pyTruthy, Bool.not_eq_true'] at hv
    simpa [content_str, List.isEmpty_iff] using hv
  | int n => exact fun hc => toString_int_ne_nil n (by simpa [content_str, pyToStr] using hc)
  | list xs => simp [content_str, pyToStr]
  | dict kvs => simp [content_str, pyToStr]

/-- A falsy tool-result content extracts to the empty string. -/
theorem extract_tool_output_falsy (v : PyVal) (hv : pyTruthy v = false) :
    extract_tool_output v = some [] := by
  cases v with
  | null => rfl
  | int n => rfl
  | str s =>
    simp only [pyTruthy, Bool.not_eq_false'] at hv
    simp [extract_tool_output, List.isEmpty_iff.mp hv]
  | list xs =>
    simp only [pyTruthy, Bool.not_eq_false'] at hv
    simp [extract_tool_output, List.isEmpty_iff.mp hv, extractTextItems]
  | dict kvs => rfl

/-- C10: whenever a tool-result block correlates successfully (a step and a
badge are produced), the step's `output` is empty exactly when the raw
content value is falsy; in particular, non-empty content that yields no
extracted text (no text-bearing list items, or a non-list non-string
payload) produces the truncated Python string rendering of the raw content,
never the empty string. -/
theorem tool_result_raw_content_output
    (block tr : List (Str × PyVal)) (pending : PendingMap) (steps : List WStep)
    (counter : Nat) (output_text : Str) (p' : PendingMap) (step : WStep) (c' : Nat)
    (badge : Badge)
    (hblock : pyGet block "toolResult".data (.dict []) = .dict tr)
    (hext : extract_tool_output (pyGet tr "content".data (.list [])) = some output_text)
    (hres : handle_tool_result_block block pending steps counter
        = some (p', steps ++ [step], c', some badge)) :
    (output_text = [] → pyTruthy (pyGet tr "content".data (.list [])) = true →
      WStep.output step
        = truncate_output (content_str (pyGet tr "content".data (.list []))) MAX_OUTPUT_LENGTH ∧
      WStep.output step ≠ []) ∧
    (WStep.output step = [] ↔ pyTruthy (pyGet tr "content".data (.list [])) = false) := by
  have hout : WStep.output step
      = truncated_output_of output_text (pyGet tr "content".data (.list [])) := by
    simp only [handle_tool_result_block, hblock, hext] at hres
    by_cases hcond : (pyTruthy (pyGet tr "toolUseId".data .null)
        && pendingHasKey pending (pyGet tr "toolUseId".data .null)) = true
    · rw [if_pos hcond] at hres
      cases hl : pendingLookup pending (pyGet tr "toolUseId".data .null) with
      | none => rw [hl] at hres; simp at hres
      | some info =>
        rw [hl] at hres
        simp only [Option.some.injEq, Prod.mk.injEq] at hres
        obtain ⟨-, h2, -, -⟩ := hres
        have h3 := List.append_cancel_left h2
        simp only [List.cons.injEq, and_true] at h3
        rw [← h3]
        rfl
    · rw [if_neg hcond] at hres
      cases pending with
      | nil => simp at hres
      | cons kv rest =>
        simp only [Option.some.injEq, Prod.mk.injEq] at hres
        obtain ⟨-, h2, -, -⟩ := hres
        have h3 := List.append_cancel_left h2
        simp only [List.cons.injEq, and_true] at h3
        rw [← h3]
        rfl
  constructor
  · intro hempty htruthy
    constructor
    · rw [hout, hempty]
      simp [truncated_output_of, htruthy]
    · rw [hout, hempty]
      simp only [truncated_output_of, List.isEmpty_nil, Bool.not_true, Bool.false_eq_true,
        if_false, htruthy, if_true]
      exact truncate_output_ne_nil _ _ (content_str_ne_nil _ htruthy)
  · constructor
    · intro hnil
      cases htr : pyTruthy (pyGet tr "content".data (.list [])) with
      | false => rfl
      | true =>
        exfalso
        rw [hout] at hnil
        cases hot : output_text with
        | nil =>
          rw [hot] at hnil
          simp only [truncated_output_of, List.isEmpty_nil, Bool.not_true, Bool.false_eq_true,
            if_false, htr, if_true] at hnil
          exact truncate_output_ne_nil _ _ (content_str_ne_nil _ htr) hnil
        | cons c cs =>
          rw [hot] at hnil
          simp only [truncated_output_of, List.isEmpty_cons, Bool.not_false, if_true] at hnil
          exact truncate_output_ne_nil (c :: cs) MAX_OUTPUT_LENGTH (by simp) hnil
    · intro hfalsy
      have hnil : output_text = [] := by
        have hfe := extract_tool_output_falsy _ hfalsy
        rw [hext] at hfe
        exact (Option.some.injEq _ _).mp hfe
      rw [hout, hnil]
      simp [truncated_output_of, hfalsy]

/-- Witness for C10: content with one text-free item correlates against a
pending call and records the truncated rendering `[\x7b'other': 'value'\x7d]`,
which is non-empty. -/
theorem tool_result_raw_content_output_witness :
    WStep.output (.tool 1 (.str "query".data) "m".data .null
        (truncated_output_of [] (.list [.dict [("other".data, .str "value".data)]]))
        (.str "success".data) (.str "t1".data))
      = truncate_output (content_str (.list [.dict [("other".data, .str "value".data)]]))
          MAX_OUTPUT_LENGTH ∧
    WStep.output (.tool 1 (.str "query".data) "m".data .null
        (truncated_output_of [] (.list [.dict [("other".data, .str "value".data)]]))
        (.str "success".data) (.str "t1".data)) ≠ [] :=
  (tool_result_raw_content_output
    [("toolResult".data, .dict [("toolUseId".data, .str "t1".data),
        ("content".data, .list [.dict [("other".data, .str "value".data)]])])]
    [("toolUseId".data, .str "t1".data),
      ("content".data, .list [.dict [("other".data, .str "value".data)]])]
    [(.str "t1".data, ⟨.str "query".data, "m".data, .null⟩)] [] 0 [] []
    (.tool 1 (.str "query".data) "m".data .null
      (truncated_output_of [] (.list [.dict [("other".data, .str "value".data)]]))
      (.str "success".data) (.str "t1".data))
    1 ⟨.str "query".data, "m".data, .null, .str "t1".data⟩
    rfl rfl rfl).1 rfl rfl

/-- Inserting into the mtime-sorted list is a permutation of consing. -/
theorem insertByMtime_perm (a : Int × Nat) (l : List (Int × Nat)) :
    (insertByMtime a l).Perm (a :: l) := by
  induction l with
  | nil => simp [insertByMtime]
  | cons b rest ih =>
    unfold insertByMtime
    split
    · exact (ih.cons b).trans (List.Perm.swap a b rest)
    · exact List.Perm.refl _

/-- The mtime sort permutes its input. -/
theorem sortByMtime_perm (l : List (Int × Nat)) : (sortByMtime l).Perm l := by
  induction l with
  | nil => exact List.Perm.refl _
  | cons a rest ih => exact (insertByMtime_perm a (sortByMtime rest)).trans (ih.cons a)

/-- Inserting into an mtime-sorted list keeps it sorted. -/
theorem insertByMtime_pairwise (a : Int × Nat) (l : List (Int × Nat))
    (h : l.Pairwise (fun x y => x.1 ≤ y.1)) :
    (insertByMtime a l).Pairwise (fun x y => x.1 ≤ y.1) := by
  induction l with
  | nil => simp [insertByMtime]
  | cons b rest ih =>
    rw [List.pairwise_cons] at h
    obtain ⟨hb, hrest⟩ := h
    unfold insertByMtime
    split
    · next hba =>
      rw [List.pairwise_cons]
      refine ⟨fun x hx => ?_, ih hrest⟩
      rcases List.mem_cons.mp ((insertByMtime_perm a rest).mem_iff.mp hx) with h' | h'
      · rw [h']
        exact le_of_lt hba
      · exact hb x h'
    · next hba =>
      rw [List.pairwise_cons]
      refine ⟨fun x hx => ?_, List.pairwise_cons.mpr ⟨hb, hrest⟩⟩
      rcases List.mem_cons.mp hx with h' | h'
      · rw [h']
        exact le_of_not_lt hba
      · exact le_trans (le_of_not_lt hba) (hb x h')

/-- The mtime sort is sorted: modification times are non-decreasing, so the
head side holds the oldest sessions. -/
theorem sortByMtime_pairwise (l : List (Int × Nat)) :
    (sortByMtime l).Pairwise (fun x y => x.1 ≤ y.1) := by
  induction l with
  | nil => simp [sortByMtime]
  | cons a rest ih => exact insertByMtime_pairwise a _ ih

/-- Counterexample to C5 as stated: with a 1-hour TTL at `now = 10000`, both
sessions are younger than the TTL, yet with `max_sessions = 1` the sweep
also removes session `0` (the oldest), so not every session with
`now - last_access ≤ T` is left in place. -/
theorem cleanup_sessions_removes_unexpired_cex :
    0 ∈ (cleanup_sessions [(9000, 0), (9500, 1)] 10000 1 1).2 ∧
    10000 - (9000 : Int) ≤ (1 : Int) * 3600 := by decide

/-- C5 (amended): the sweep removes every expired session
(`now - mtime > ttl`), keeps only unexpired ones, removes exactly the
expired ones whenever the unexpired count is within `max_sessions`, and caps
the number of survivors at `max_sessions`.  When the unexpired sessions
exceed the limit, it is the oldest ones that go: there is a permutation of
the unexpired sessions ordered by non-decreasing modification time whose
overflow-length prefix (the oldest sessions) is removed and whose suffix is
what survives. -/
theorem cleanup_sessions_spec (sessions : List (Int × Nat)) (now : Int)
    (ttl_hours max_sessions : Nat) :
    (∀ s ∈ sessions, now - s.1 > (ttl_hours : Int) * 3600 →
      s.2 ∈ (cleanup_sessions sessions now ttl_hours max_sessions).2) ∧
    (∀ s ∈ (cleanup_sessions sessions now ttl_hours max_sessions).1,
      now - s.1 ≤ (ttl_hours : Int) * 3600) ∧
    ((sessions.filter (fun s => !decide (now - s.1 > (ttl_hours : Int) * 3600))).length
        ≤ max_sessions →
      cleanup_sessions sessions now ttl_hours max_sessions
        = (sessions.filter (fun s => !decide (now - s.1 > (ttl_hours : Int) * 3600)),
           (sessions.filter (fun s => decide (now - s.1 > (ttl_hours : Int) * 3600))).map
             (fun s => s.2))) ∧
    ((cleanup_sessions sessions now ttl_hours max_sessions).1.length
      = min (sessions.filter
          (fun s => !decide (now - s.1 > (ttl_hours : Int) * 3600))).length max_sessions) ∧
    (max_sessions
        < (sessions.filter (fun s => !decide (now - s.1 > (ttl_hours : Int) * 3600))).length →
      ∃ ordered : List (Int × Nat),
        ordered.Perm (sessions.filter (fun s => !decide (now - s.1 > (ttl_hours : Int) * 3600))) ∧
        ordered.Pairwise (fun x y => x.1 ≤ y.1) ∧
        (cleanup_sessions sessions now ttl_hours max_sessions).1
          = ordered.drop
              ((sessions.filter
                (fun s => !decide (now - s.1 > (ttl_hours : Int) * 3600))).length - max_sessions) ∧
        (cleanup_sessions sessions now ttl_hours max_sessions).2
          = (sessions.filter (fun s => decide (now - s.1 > (ttl_hours : Int) * 3600))).map
              (fun s => s.2)
            ++ (ordered.take
                ((sessions.filter
                  (fun s => !decide (now - s.1 > (ttl_hours : Int) * 3600))).length
                  - max_sessions)).map (fun s => s.2)) := by
  refine ⟨fun s hs hexp => ?_, fun s hs => ?_, fun hle => ?_, ?_, fun hov => ?_⟩
  · have hs1 : s.2 ∈ (sessions.filter
        (fun s => decide (now - s.1 > (ttl_hours : Int) * 3600))).map (fun s => s.2) :=
      List.mem_map_of_mem _ (List.mem_filter.mpr ⟨hs, by simpa using hexp⟩)
    unfold cleanup_sessions
    dsimp only
    split
    · exact List.mem_append_left _ hs1
    · exact hs1
  · revert hs
    unfold cleanup_sessions
    dsimp only
    split
    · intro hs
      have hmem := List.mem_of_mem_drop hs
      have hmem2 := ((sortByMtime_perm _).mem_iff).mp hmem
      have := (List.mem_filter.mp hmem2).2
      simpa using this
    · intro hs
      have := (List.mem_filter.mp hs).2
      simpa using this
  · unfold cleanup_sessions
    dsimp only
    rw [if_neg (by omega)]
  · unfold cleanup_sessions
    dsimp only
    split
    · next hgt =>
      simp only [List.length_drop, (sortByMtime_perm _).length_eq]
      omega
    · next hng =>
      simp only []
      omega
  · refine ⟨sortByMtime (sessions.filter
        (fun s => !decide (now - s.1 > (ttl_hours : Int) * 3600))),
      sortByMtime_perm _, sortByMtime_pairwise _, ?_, ?_⟩
    · unfold cleanup_sessions
      dsimp only
      rw [if_pos hov]
    · unfold cleanup_sessions
      dsimp only
      rw [if_pos hov]

/-- Witness for C5 (amended): an expired session's id ends up removed, and
on the overflow input of the counterexample the survivor is exactly the
suffix (the newest session) of the sorted unexpired list. -/
theorem cleanup_sessions_spec_witness :
    0 ∈ (cleanup_sessions [(100, 0), (9500, 1)] 10000 1 5).2 ∧
    ∃ ordered : List (Int × Nat),
      ordered.Perm ([(9000, 0), (9500, 1)].filter
        (fun s => !decide ((10000 : Int) - s.1 > ((1 : Nat) : Int) * 3600))) ∧
      ordered.Pairwise (fun x y => x.1 ≤ y.1) ∧
      (cleanup_sessions [(9000, 0), (9500, 1)] 10000 1 1).1 = ordered.drop 1 ∧
      (cleanup_sessions [(9000, 0), (9500, 1)] 10000 1 1).2
        = ([(9000, 0), (9500, 1)].filter
            (fun s => decide ((10000 : Int) - s.1 > ((1 : Nat) : Int) * 3600))).map
            (fun s => s.2)
          ++ (ordered.take 1).map (fun s => s.2) :=
  ⟨(cleanup_sessions_spec [(100, 0), (9500, 1)] 10000 1 5).1 (100, 0) (by decide) (by decide),
   (cleanup_sessions_spec [(9000, 0), (9500, 1)] 10000 1 1).2.2.2.2 (by decide)⟩

/-- The last element of a filtered range is the greatest index below `b`
satisfying the predicate. -/
theorem filter_range_getLast_eq_some (p : Nat → Bool) (b : Nat) : ∀ i,
    ((List.range b).filter p).getLast? = some i ↔
      (i < b ∧ p i = true ∧ ∀ j, i < j → j < b → p j = false) := by
  induction b with
  | zero => simp
  | succ n ih =>
    intro i
    rw [List.range_succ, List.filter_append]
    cases hp : p n with
    | true =>
      rw [show List.filter p [n] = [n] by simp [hp], List.getLast?_concat]
      constructor
      · intro h
        cases h
        exact ⟨Nat.lt_succ_self n, hp, fun j h1 h2 => absurd h2 (by omega)⟩
      · rintro ⟨h1, h2, h3⟩
        have : i = n := by
          by_contra hne
          have hlt : i < n := by omega
          have := h3 n hlt (Nat.lt_succ_self n)
          rw [hp] at this
          cases this
        rw [this]
    | false =>
      rw [show List.filter p [n] = [] by simp [hp], List.append_nil, ih i]
      constructor
      · rintro ⟨h1, h2, h3⟩
        refine ⟨by omega, h2, fun j hj1 hj2 => ?_⟩
        by_cases hj : j = n
        · rw [hj]; exact hp
        · exact h3 j hj1 (by omega)
      · rintro ⟨h1, h2, h3⟩
        have hin : i ≠ n := fun he => by rw [he, hp] at h2; cases h2
        exact ⟨by omega, h2, fun j hj1 hj2 => h3 j hj1 (by omega)⟩

/-- A filtered range has no last element exactly when no index below `b`
satisfies the predicate. -/
theorem filter_range_getLast_eq_none (p : Nat → Bool) (b : Nat) :
    ((List.range b).filter p).getLast? = none ↔ ∀ j, j < b → p j = false := by
  rw [List.getLast?_eq_none_iff, List.filter_eq_nil_iff]
  constructor
  · intro h j hj
    simpa using h j (List.mem_range.mpr hj)
  · intro h a ha
    simpa using h a (List.mem_range.mp ha)

/-- C2: an output of at most 5,000 characters is returned unchanged; a
longer output is cut at `cut` — the greatest newline position in the window
`[4500, 5000)`, or a hard 5,000 ceiling when that window has no newline —
then right-stripped, and the word "truncated" appears in the appended
summary of omitted lines and characters. -/
theorem truncate_output_spec (s : Str) :
    (s.length ≤ 5000 → truncate_output s MAX_OUTPUT_LENGTH = s) ∧
    (5000 < s.length →
      ∃ cut, cut ≤ 5000 ∧
        ((4500 ≤ cut ∧ cut < 5000 ∧ s.getD cut ' ' = '\n' ∧
            ∀ j, cut < j → j < 5000 → s.getD j ' ' ≠ '\n') ∨
          (cut = 5000 ∧ ∀ j, 4500 ≤ j → j < 5000 → s.getD j ' ' ≠ '\n')) ∧
        truncate_output s MAX_OUTPUT_LENGTH
          = pyRstrip (s.take cut) ++ "\n\n... (truncated ".data
            ++ (toString (((s.count '\n' + 1 : Nat) : Int)
                - (((pyRstrip (s.take cut)).count '\n' + 1 : Nat) : Int))).data
            ++ " more lines, ".data
            ++ (toString ((s.length : Int) - ((cut : Nat) : Int))).data
            ++ " more characters)".data ∧
        ∃ l r, truncate_output s MAX_OUTPUT_LENGTH = l ++ "truncated".data ++ r) := by
  constructor
  · intro h
    unfold truncate_output MAX_OUTPUT_LENGTH
    rw [if_pos h]
  · intro h
    have hnle : ¬(s.length ≤ MAX_OUTPUT_LENGTH) := by
      simp only [MAX_OUTPUT_LENGTH]
      omega
    have ha : pyNormIndex s.length ((MAX_OUTPUT_LENGTH : Int) - 500) = 4500 := by
      simp only [MAX_OUTPUT_LENGTH, pyNormIndex]
      norm_num
      omega
    have hb : pyNormIndex s.length (MAX_OUTPUT_LENGTH : Int) = 5000 := by
      simp only [MAX_OUTPUT_LENGTH, pyNormIndex]
      norm_num
      omega
    cases hmatch : ((List.range 5000).filter
        (fun i => decide (4500 ≤ i) && (s.getD i ' ' == '\n'))).getLast? with
    | some i =>
      obtain ⟨hi1, hi2, hi3⟩ := (filter_range_getLast_eq_some _ 5000 i).mp hmatch
      simp only [Bool.and_eq_true, decide_eq_true_eq, beq_iff_eq] at hi2
      have hrfind : pyRfindNewline s ((MAX_OUTPUT_LENGTH : Int) - 500) (MAX_OUTPUT_LENGTH : Int)
          = (i : Int) := by
        simp only [pyRfindNewline, ha, hb, hmatch]
      refine ⟨i, by omega, Or.inl ⟨hi2.1, hi1, hi2.2, fun j hj1 hj2 => ?_⟩, ?_, ?_⟩
      · have := hi3 j hj1 hj2
        simp only [Bool.and_eq_true, decide_eq_true_eq, beq_iff_eq, Bool.and_eq_false_iff,
          decide_eq_false_iff_not, not_le] at this
        rcases this with h' | h'
        · omega
        · simpa using h'
      · unfold truncate_output
        rw [if_neg hnle, hrfind]
        have hipos : ((i : Int) > 0) := by exact_mod_cast (show 0 < i by omega)
        dsimp only
        rw [if_pos hipos, Int.toNat_natCast]
      · refine ⟨pyRstrip (s.take i) ++ "\n\n... (".data,
          " ".data ++ (toString (((s.count '\n' + 1 : Nat) : Int)
            - (((pyRstrip (s.take i)).count '\n' + 1 : Nat) : Int))).data
          ++ " more lines, ".data ++ (toString ((s.length : Int) - ((i : Nat) : Int))).data
          ++ " more characters)".data, ?_⟩
        unfold truncate_output
        rw [if_neg hnle, hrfind]
        have hipos : ((i : Int) > 0) := by exact_mod_cast (show 0 < i by omega)
        dsimp only
        rw [if_pos hipos, Int.toNat_natCast]
        simp [List.append_assoc, List.cons_append]
    | none =>
      have hnone := (filter_range_getLast_eq_none _ 5000).mp hmatch
      have hrfind : pyRfindNewline s ((MAX_OUTPUT_LENGTH : Int) - 500) (MAX_OUTPUT_LENGTH : Int)
          = -1 := by
        simp only [pyRfindNewline, ha, hb, hmatch]
      refine ⟨5000, le_refl _, Or.inr ⟨rfl, fun j hj1 hj2 => ?_⟩, ?_, ?_⟩
      · have := hnone j hj2
        simp only [Bool.and_eq_false_iff, decide_eq_false_iff_not, not_le, beq_eq_false_iff_ne,
          ne_eq] at this
        rcases this with h' | h'
        · omega
        · exact h'
      · unfold truncate_output
        rw [if_neg hnle, hrfind]
        dsimp only
        rw [if_neg (by norm_num : ¬((-1 : Int) > 0))]
        simp only [MAX_OUTPUT_LENGTH]
      · refine ⟨pyRstrip (s.take 5000) ++ "\n\n... (".data,
          " ".data ++ (toString (((s.count '\n' + 1 : Nat) : Int)
            - (((pyRstrip (s.take 5000)).count '\n' + 1 : Nat) : Int))).data
          ++ " more lines, ".data ++ (toString ((s.length : Int) - ((5000 : Nat) : Int))).data
          ++ " more characters)".data, ?_⟩
        unfold truncate_output
        rw [if_neg hnle, hrfind]
        dsimp only
        rw [if_neg (by norm_num : ¬((-1 : Int) > 0))]
        simp only [MAX_OUTPUT_LENGTH]
        simp [List.append_assoc, List.cons_append]

/-- Witness for C2: a short string passes through unchanged. -/
theorem truncate_output_spec_witness :
    truncate_output "abc".data MAX_OUTPUT_LENGTH = "abc".data :=
  (truncate_output_spec "abc".data).1 (by decide)

/-- C7: exception text matching a known category (model validation, tool-call
format, model communication — checked in that order, case-insensitively) is
replaced by the corresponding fixed message; any other text falls back to the
part before the first colon, or the whole message when it has no colon,
prefixed with "An error occurred: ". -/
theorem format_error_message_spec (msg : Str) :
    (strContains (pyLower msg) "validationexception".data = true →
      format_error_message msg
        = "Invalid request to AI model. Please check model configuration or try a different request.".data) ∧
    (strContains (pyLower msg) "validationexception".data = false →
     strContains (pyLower msg) "error parsing tool call".data = true →
      format_error_message msg
        = "The model had trouble formatting its response. Please try rephrasing your question.".data) ∧
    (strContains (pyLower msg) "validationexception".data = false →
     strContains (pyLower msg) "error parsing tool call".data = false →
     strContains (pyLower msg) "responseerror".data = true →
      format_error_message msg
        = "There was an error communicating with the model. Please try again.".data) ∧
    (strContains (pyLower msg) "validationexception".data = false →
     strContains (pyLower msg) "error parsing tool call".data = false →
     strContains (pyLower msg) "responseerror".data = false →
      (msg.contains ':' = true →
        format_error_message msg
          = "An error occurred: ".data ++ msg.takeWhile (fun c => c ≠ ':')) ∧
      (msg.contains ':' = false →
        format_error_message msg = "An error occurred: ".data ++ msg)) := by
  unfold format_error_message
  refine ⟨fun h1 => ?_, fun h1 h2 => ?_, fun h1 h2 h3 => ?_, fun h1 h2 h3 => ⟨fun h4 => ?_, fun h4 => ?_⟩⟩
  · rw [if_pos h1]
  · rw [if_neg (by simp [h1]), if_pos h2]
  · rw [if_neg (by simp [h1]), if_neg (by simp [h2]), if_pos h3]
  · rw [if_neg (by simp [h1]), if_neg (by simp [h2]), if_neg (by simp [h3]), if_pos h4]
  · rw [if_neg (by simp [h1]), if_neg (by simp [h2]), if_neg (by simp [h3]),
      if_neg (by simp only [h4]; decide)]

/-- Witness for C7: a category match and the no-colon fallback on concrete
messages. -/
theorem format_error_message_spec_witness :
    format_error_message "Some validationException error".data
      = "Invalid request to AI model. Please check model configuration or try a different request.".data ∧
    format_error_message "boom".data = "An error occurred: boom".data :=
  ⟨(format_error_message_spec "Some validationException error".data).1 (by decide),
   ((format_error_message_spec "boom".data).2.2.2 (by decide) (by decide) (by decide)).2 (by decide)⟩
